import Mathlib

/-!
Shallow embedding of the distribution-permission program (`main.go`).

The program resolves whether a named distributor may operate in a region.
Regions are hyphen-separated codes of one to three segments
(`city-province-country`, `province-country`, or `country`).  Each
distributor carries an include set and an exclude set of region codes and
an optional parent; a parent must exist before a child is registered, so
parent chains are acyclic by construction.  We therefore model a
distributor as an inductive value whose parent chain is materialised as a
subtree: every Go heap graph reachable by the program corresponds to such
a value, and all claims below concern reads or rejected mutations, for
which the materialised chain agrees with the pointer graph.

Go's `map[string]bool` rule sets are modelled as `List String` used as
sets; iteration order of a Go map is arbitrary, and order-independence of
evaluation is itself one of the verified properties.

Functions that in Go index a slice are embedded twice: a total version
(the reference semantics) and a `Checked` version returning `Option`,
where `none` marks an out-of-bounds access (a Go panic).  Panic-freedom
of evaluation is the statement that the `Checked` version always returns
`some` of the total one.
-/

namespace DistPerm

/-- One step of `splitDash`: `acc` holds the characters of the current
segment in reverse.  Models the loop of Go `strings.Split` specialised to
the single-character separator `"-"`. -/
def splitDashAux : List Char → List Char → List String
  | [], acc => [String.mk acc.reverse]
  | c :: cs, acc =>
      if c = '-' then String.mk acc.reverse :: splitDashAux cs []
      else splitDashAux cs (c :: acc)

/-- Model of Go `strings.Split(s, "-")`: the list of segments of `s`
between hyphens.  On the empty string it returns `[""]`, as in Go. -/
def splitDash (s : String) : List String :=
  splitDashAux s.data []

/-- Embedding of `isSubregion(region1, region2)` from `main.go`.  The Go
function dispatches on `len(region2)` (1, 2, 3, otherwise) and compares
slice elements; slice reads `region1[i]` become `region1.get? i`
compared against `some _`, which is equality of the read element whenever
the index is in bounds. -/
def isSubregion (region1 region2 : List String) : Bool :=
  match region2 with
  | [country] =>
      region1.get? (region1.length - 1) == some country
  | [province, country] =>
      decide (2 ≤ region1.length) &&
      (region1.get? (region1.length - 2) == some province) &&
      (region1.get? (region1.length - 1) == some country)
  | [city, province, country] =>
      decide (region1.length = 3) &&
      (region1.get? 0 == some city) &&
      (region1.get? 1 == some province) &&
      (region1.get? 2 == some country)
  | _ => false

/-- Panic-aware embedding of `isSubregion`: a slice read whose index is
out of bounds yields `none` (the Go panic).  Go's `&&` short-circuits,
but every index it guards is in bounds once the explicit length test has
passed, so reads are sequenced without further guards. -/
def isSubregionChecked (region1 region2 : List String) : Option Bool :=
  match region2 with
  | [country] =>
      match region1.get? (region1.length - 1) with
      | none => none
      | some x => some (x == country)
  | [province, country] =>
      if 2 ≤ region1.length then
        match region1.get? (region1.length - 2), region1.get? (region1.length - 1) with
        | some x, some y => some (x == province && y == country)
        | _, _ => none
      else some false
  | [city, province, country] =>
      if region1.length = 3 then
        match region1.get? 0, region1.get? 1, region1.get? 2 with
        | some x, some y, some z => some (x == city && y == province && z == country)
        | _, _, _ => none
      else some false
  | _ => some false

/-- Embedding of the Go `Distributor` struct.  `parent` is the nil-able
`Parent *Distributor` pointer with the parent chain materialised (see the
file comment); the shared `Locations` catalog reference lives on the
system, where it is read. -/
inductive Distributor : Type where
  | mk (name : String) (includes : List String) (excludes : List String)
       (parent : Option Distributor)

/-- The `Name` field. -/
def Distributor.name : Distributor → String
  | .mk n _ _ _ => n

/-- The `Includes` rule set. -/
def Distributor.includes : Distributor → List String
  | .mk _ i _ _ => i

/-- The `Excludes` rule set. -/
def Distributor.excludes : Distributor → List String
  | .mk _ _ e _ => e

/-- The `Parent` pointer. -/
def Distributor.parent : Distributor → Option Distributor
  | .mk _ _ _ p => p

/-- Embedding of `Distributor.HasPermission(region)`: excludes are
scanned first and any match denies; otherwise any include match defers to
the parent when one exists and authorises at a root; otherwise deny. -/
def Distributor.HasPermission : Distributor → String → Bool
  | .mk _ includes excludes parent, region =>
      let parts := splitDash region
      if excludes.any fun excluded => isSubregion parts (splitDash excluded) then
        false
      else if includes.any fun included => isSubregion parts (splitDash included) then
        match parent with
        | some p => p.HasPermission region
        | none => true
      else
        false

/-- A Go `for … range` loop that returns early on the first element whose
test yields true, where the test itself may panic: `none` propagates a
panic, `some true` is an early return, `some false` continues. -/
def anyChecked : List String → (String → Option Bool) → Option Bool
  | [], _ => some false
  | x :: xs, f =>
      match f x with
      | none => none
      | some true => some true
      | some false => anyChecked xs f

/-- Panic-aware embedding of `HasPermission`, propagating a panic
(`none`) from any `isSubregion` evaluation the loops reach. -/
def Distributor.HasPermissionChecked : Distributor → String → Option Bool
  | .mk _ includes excludes parent, region =>
      let parts := splitDash region
      match anyChecked excludes fun excluded => isSubregionChecked parts (splitDash excluded) with
      | none => none
      | some true => some false
      | some false =>
          match anyChecked includes fun included => isSubregionChecked parts (splitDash included) with
          | none => none
          | some true =>
              match parent with
              | some p => p.HasPermissionChecked region
              | none => some true
          | some false => some false

/-- Insertion into a rule set, modelling `m[permission] = true` on a Go
`map[string]bool`: a set insert, a no-op when already present. -/
def insertRegion (rules : List String) (permission : String) : List String :=
  if rules.contains permission then rules else rules ++ [permission]

/-- Embedding of `Distributor.AddPermission(permission, isInclude)`.  Go
mutates the receiver and returns an error; the model returns the
post-call distributor paired with the optional error message. -/
def Distributor.AddPermission (d : Distributor) (permission : String) (isInc : Bool) :
    Distributor × Option String :=
  match d.parent with
  | some p =>
      if !(p.HasPermission permission) then
        (d, some ("parent distributor does not have permission for: " ++ permission))
      else if isInc then
        (.mk d.name (insertRegion d.includes permission) d.excludes d.parent, none)
      else
        (.mk d.name d.includes (insertRegion d.excludes permission) d.parent, none)
  | none =>
      if isInc then
        (.mk d.name (insertRegion d.includes permission) d.excludes d.parent, none)
      else
        (.mk d.name d.includes (insertRegion d.excludes permission) d.parent, none)

/-- Embedding of the Go `Location` record loaded from the gazetteer. -/
structure Location : Type where
  cityCode : String
  provinceCode : String
  countryCode : String
  cityName : String
  provinceName : String
  countryName : String

/-- Embedding of `DistributionSystem`: the distributor graph keyed by
name and the region catalog keyed by region code.  Go's maps become
association lists; `List.lookup` is the map read. -/
structure DistributionSystem : Type where
  distributors : List (String × Distributor)
  locations : List (String × Location)

/-- Embedding of `DistributionSystem.ValidateRegion(region)`: catalog key
membership. -/
def DistributionSystem.ValidateRegion (ds : DistributionSystem) (region : String) : Bool :=
  (ds.locations.lookup region).isSome

/-- Replace the binding of `name` in the graph, modelling the in-place
mutation of the `*Distributor` the map points to. -/
def updateAssoc (l : List (String × Distributor)) (name : String) (d : Distributor) :
    List (String × Distributor) :=
  match l with
  | [] => []
  | (k, v) :: rest =>
      if k == name then (k, d) :: rest else (k, v) :: updateAssoc rest name d

/-- Embedding of `DistributionSystem.AddDistributor(name, parentName)`.
Returns the post-call system and the optional error. -/
def DistributionSystem.AddDistributor (ds : DistributionSystem) (name parentName : String) :
    DistributionSystem × Option String :=
  if (ds.distributors.lookup name).isSome then
    (ds, some ("distributor " ++ name ++ " already exists"))
  else if parentName ≠ "" then
    match ds.distributors.lookup parentName with
    | none => (ds, some ("parent distributor " ++ parentName ++ " does not exist"))
    | some parent =>
        (⟨ds.distributors ++ [(name, .mk name [] [] (some parent))], ds.locations⟩, none)
  else
    (⟨ds.distributors ++ [(name, .mk name [] [] none)], ds.locations⟩, none)

/-- Embedding of `DistributionSystem.AddPermission(distributorName,
region, isInclude)`: unknown distributor, then invalid region, then the
node-level mutation with its parent-authorization check. -/
def DistributionSystem.AddPermission (ds : DistributionSystem)
    (distributorName region : String) (isInc : Bool) :
    DistributionSystem × Option String :=
  match ds.distributors.lookup distributorName with
  | none => (ds, some ("distributor " ++ distributorName ++ " does not exist"))
  | some distributor =>
      if !(ds.ValidateRegion region) then
        (ds, some ("invalid region code: " ++ region))
      else
        match distributor.AddPermission region isInc with
        | (d2, none) => (⟨updateAssoc ds.distributors distributorName d2, ds.locations⟩, none)
        | (_, some e) => (ds, some e)

/-- Embedding of `DistributionSystem.CheckPermission(distributorName,
region)`: Go returns `(bool, error)`; the model returns the pair with the
error as an `Option`. -/
def DistributionSystem.CheckPermission (ds : DistributionSystem)
    (distributorName region : String) : Bool × Option String :=
  match ds.distributors.lookup distributorName with
  | none => (false, some ("distributor " ++ distributorName ++ " does not exist"))
  | some distributor =>
      if !(ds.ValidateRegion region) then
        (false, some ("invalid region code: " ++ region))
      else
        (distributor.HasPermission region, none)

/-! ### Basic facts about the embedded operations -/

/-- The splitter loop always produces at least the pending segment. -/
theorem splitDashAux_ne_nil : ∀ (cs acc : List Char), splitDashAux cs acc ≠ []
  | [], acc => by simp [splitDashAux]
  | c :: cs, acc => by
      rw [splitDashAux]
      split
      · simp
      · exact splitDashAux_ne_nil cs (c :: acc)

/-- Splitting any string on hyphens yields at least one segment, as Go's
`strings.Split` does. -/
theorem splitDash_ne_nil (s : String) : splitDash s ≠ [] :=
  splitDashAux_ne_nil s.data []

/-- On a nonempty candidate, the panic-aware `isSubregion` never panics
and agrees with the total version. -/
theorem isSubregionChecked_eq_some (region1 region2 : List String) (h : region1 ≠ []) :
    isSubregionChecked region1 region2 = some (isSubregion region1 region2) := by
  have hlen : 1 ≤ region1.length := by
    cases region1 with
    | nil => exact absurd rfl h
    | cons a t => simp
  match region2 with
  | [] => rfl
  | [country] =>
      obtain ⟨x, hx⟩ : ∃ x, region1.get? (region1.length - 1) = some x :=
        ⟨_, List.get?_eq_get (show region1.length - 1 < region1.length by omega)⟩
      rw [isSubregionChecked, isSubregion, hx]
      rfl
  | [province, country] =>
      by_cases h2 : 2 ≤ region1.length
      · obtain ⟨x, hx⟩ : ∃ x, region1.get? (region1.length - 2) = some x :=
          ⟨_, List.get?_eq_get (show region1.length - 2 < region1.length by omega)⟩
        obtain ⟨y, hy⟩ : ∃ y, region1.get? (region1.length - 1) = some y :=
          ⟨_, List.get?_eq_get (show region1.length - 1 < region1.length by omega)⟩
        rw [isSubregionChecked, isSubregion, hx, hy]
        simp [h2, Bool.and_assoc]
      · rw [isSubregionChecked, isSubregion]
        simp [h2]
  | [city, province, country] =>
      by_cases h3 : region1.length = 3
      · obtain ⟨x, hx⟩ : ∃ x, region1.get? 0 = some x :=
          ⟨_, List.get?_eq_get (show 0 < region1.length by omega)⟩
        obtain ⟨y, hy⟩ : ∃ y, region1.get? 1 = some y :=
          ⟨_, List.get?_eq_get (show 1 < region1.length by omega)⟩
        obtain ⟨z, hz⟩ : ∃ z, region1.get? 2 = some z :=
          ⟨_, List.get?_eq_get (show 2 < region1.length by omega)⟩
        rw [isSubregionChecked, isSubregion, hx, hy, hz]
        simp [h3, Bool.and_assoc]
      · rw [isSubregionChecked, isSubregion]
        simp [h3]
  | _ :: _ :: _ :: _ :: _ => rfl

/-- A panic-free early-return loop computes `List.any`. -/
theorem anyChecked_eq_any (l : List String) (f : String → Option Bool) (g : String → Bool)
    (hfg : ∀ x ∈ l, f x = some (g x)) : anyChecked l f = some (l.any g) := by
  induction l with
  | nil => rfl
  | cons x xs ih =>
      rw [anyChecked, hfg x (by simp)]
      cases hgx : g x
      · rw [ih fun y hy => hfg y (by simp [hy])]
        simp [hgx]
      · simp [hgx]

/-- `List.any` only depends on the multiset of elements. -/
theorem perm_any {l₁ l₂ : List String} (f : String → Bool) (h : l₁.Perm l₂) :
    l₁.any f = l₂.any f := by
  induction h with
  | nil => rfl
  | cons x _ ih => simp [List.any_cons, ih]
  | swap x y l => simp [List.any_cons, Bool.or_left_comm]
  | trans _ _ ih₁ ih₂ => rw [ih₁, ih₂]

/-- Appending a fresh binding does not change the lookup of other keys. -/
theorem lookup_append_single_ne (l : List (String × Distributor)) (k nm : String)
    (d : Distributor) (h : k ≠ nm) : (l ++ [(nm, d)]).lookup k = l.lookup k := by
  induction l with
  | nil => simp [List.lookup, beq_eq_false_iff_ne.mpr h]
  | cons x xs ih =>
      rw [List.cons_append, List.lookup, List.lookup]
      split
      · rfl
      · exact ih

/-- Unfolding of `HasPermission` with the parent kept abstract. -/
theorem hasPermission_def (nm : String) (inc exc : List String) (par : Option Distributor)
    (region : String) :
    (Distributor.mk nm inc exc par).HasPermission region =
      if exc.any fun excluded => isSubregion (splitDash region) (splitDash excluded) then
        false
      else if inc.any fun included => isSubregion (splitDash region) (splitDash included) then
        match par with
        | some p => p.HasPermission region
        | none => true
      else
        false := by
  cases par <;> rfl

/-- Unfolding of `HasPermissionChecked` with the parent kept abstract. -/
theorem hasPermissionChecked_def (nm : String) (inc exc : List String)
    (par : Option Distributor) (region : String) :
    (Distributor.mk nm inc exc par).HasPermissionChecked region =
      match anyChecked exc fun excluded => isSubregionChecked (splitDash region) (splitDash excluded) with
      | none => none
      | some true => some false
      | some false =>
          match anyChecked inc fun included => isSubregionChecked (splitDash region) (splitDash included) with
          | none => none
          | some true =>
              match par with
              | some p => p.HasPermissionChecked region
              | none => some true
          | some false => some false := by
  cases par <;> simp [Distributor.HasPermissionChecked]

/-- A pattern that is not one, two or three segments long never matches. -/
theorem isSubregion_other (c p : List String) (hp : p.length = 0 ∨ 4 ≤ p.length) :
    isSubregion c p = false := by
  rcases p with _ | ⟨a, _ | ⟨b, _ | ⟨e, _ | ⟨f, t⟩⟩⟩⟩
  · rfl
  · simp at hp
  · simp at hp
  · simp at hp
  · rfl

/-- Evaluation never reaches an out-of-bounds slice read: the panic-aware
evaluator agrees with the total one on every distributor and region. -/
theorem hasPermissionChecked_eq_aux : ∀ (d : Distributor) (region : String),
    d.HasPermissionChecked region = some (d.HasPermission region)
  | .mk nm inc exc parent, region => by
      have hsplit : splitDash region ≠ [] := splitDash_ne_nil region
      rw [hasPermissionChecked_def, hasPermission_def]
      rw [anyChecked_eq_any exc _ (fun excluded => isSubregion (splitDash region) (splitDash excluded))
            (fun x _ => isSubregionChecked_eq_some _ _ hsplit)]
      cases hexc : exc.any fun excluded => isSubregion (splitDash region) (splitDash excluded) with
      | true => simp
      | false =>
          rw [anyChecked_eq_any inc _ (fun included => isSubregion (splitDash region) (splitDash included))
                (fun x _ => isSubregionChecked_eq_some _ _ hsplit)]
          cases hinc : inc.any fun included => isSubregion (splitDash region) (splitDash included) with
          | false => simp
          | true =>
              cases parent with
              | none => simp
              | some p => simpa using hasPermissionChecked_eq_aux p region

/-! ### The claims -/

/-- Claim C2: for every candidate of one to three segments,
a one-segment pattern matches exactly when the candidate's last segment
equals it; a two-segment pattern matches exactly when the candidate has at
least two segments whose last two equal the pattern in order; a
three-segment pattern matches exactly when the candidate is that very
triple; any other pattern length never matches. -/
theorem isSubregion_cases (c p : List String) (hc1 : 1 ≤ c.length) (hc3 : c.length ≤ 3) :
    (∀ a, p = [a] → (isSubregion c p = true ↔ c.getLast? = some a))
    ∧ (∀ a b, p = [a, b] →
        (isSubregion c p = true ↔ 2 ≤ c.length ∧ c.drop (c.length - 2) = [a, b]))
    ∧ (∀ a b d, p = [a, b, d] → (isSubregion c p = true ↔ c = [a, b, d]))
    ∧ (p.length = 0 ∨ 4 ≤ p.length → isSubregion c p = false) := by
  refine ⟨?_, ?_, ?_, fun hp => isSubregion_other c p hp⟩
  · rintro a rfl
    rcases c with _ | ⟨x, _ | ⟨y, _ | ⟨z, _ | ⟨w, t⟩⟩⟩⟩
    · simp at hc1
    · simp [isSubregion]
    · simp [isSubregion]
    · simp [isSubregion]
    · simp at hc3
  · rintro a b rfl
    rcases c with _ | ⟨x, _ | ⟨y, _ | ⟨z, _ | ⟨w, t⟩⟩⟩⟩
    · simp at hc1
    · simp [isSubregion]
    · simp [isSubregion]
    · simp [isSubregion]
    · simp at hc3
  · rintro a b d rfl
    rcases c with _ | ⟨x, _ | ⟨y, _ | ⟨z, _ | ⟨w, t⟩⟩⟩⟩
    · simp at hc1
    · simp [isSubregion]
    · simp [isSubregion]
    · simp [isSubregion, and_assoc]
    · simp at hc3

/-- Claim C2 witness: a province-country candidate is inside its country
pattern. -/
theorem isSubregion_cases_witness :
    1 ≤ (["NY", "US"] : List String).length ∧ isSubregion ["NY", "US"] ["US"] = true :=
  ⟨by decide,
   ((isSubregion_cases ["NY", "US"] ["US"] (by decide) (by decide)).1 "US" rfl).mpr (by decide)⟩

/-- Claim C3: any matching exclude rule denies, whatever the includes and
whatever the parent (the quantification over `par` expresses that no
recursion to the parent takes place). -/
theorem hasPermission_exclude_denies (nm : String) (inc exc : List String)
    (par : Option Distributor) (region excl : String) (he : excl ∈ exc)
    (hm : isSubregion (splitDash region) (splitDash excl) = true) :
    (Distributor.mk nm inc exc par).HasPermission region = false := by
  have hany : (exc.any fun e => isSubregion (splitDash region) (splitDash e)) = true :=
    List.any_eq_true.mpr ⟨excl, he, hm⟩
  rw [hasPermission_def]
  simp [hany]

/-- Claim C3 witness: excluding `NY-US` denies `NYC-NY-US` even though
`US` is included. -/
theorem hasPermission_exclude_denies_witness :
    (Distributor.mk "B" ["US"] ["NY-US"] none).HasPermission "NYC-NY-US" = false :=
  hasPermission_exclude_denies "B" ["US"] ["NY-US"] none "NYC-NY-US" "NY-US" (by simp) rfl

/-- Claim C4: with no matching exclude, a matching include defers to the
parent when one exists and authorises at a root; with no matching include
the query is denied. -/
theorem hasPermission_include_defers (nm : String) (inc exc : List String) (region : String)
    (hexc : ∀ e ∈ exc, isSubregion (splitDash region) (splitDash e) = false) :
    ((∃ i ∈ inc, isSubregion (splitDash region) (splitDash i) = true) →
        (∀ p : Distributor,
          (Distributor.mk nm inc exc (some p)).HasPermission region = p.HasPermission region)
        ∧ (Distributor.mk nm inc exc none).HasPermission region = true)
    ∧ ((∀ i ∈ inc, isSubregion (splitDash region) (splitDash i) = false) →
        ∀ par : Option Distributor,
          (Distributor.mk nm inc exc par).HasPermission region = false) := by
  have hexc2 : (exc.any fun e => isSubregion (splitDash region) (splitDash e)) = false := by
    simp only [List.any_eq_false]
    intro e hmem
    simp [hexc e hmem]
  constructor
  · intro hinc
    have hinc2 : (inc.any fun i => isSubregion (splitDash region) (splitDash i)) = true :=
      List.any_eq_true.mpr hinc
    constructor
    · intro p
      rw [hasPermission_def]
      simp [hexc2, hinc2]
    · simp only [Distributor.HasPermission]
      simp [hexc2, hinc2]
  · intro hinc par
    have hinc2 : (inc.any fun i => isSubregion (splitDash region) (splitDash i)) = false := by
      simp only [List.any_eq_false]
      intro i hmem
      simp [hinc i hmem]
    rw [hasPermission_def]
    simp [hexc2, hinc2]

/-- Claim C4 witness: a root including `US` authorises `CA-US`. -/
theorem hasPermission_include_defers_witness :
    (Distributor.mk "A" ["US"] [] none).HasPermission "CA-US" = true :=
  ((hasPermission_include_defers "A" ["US"] [] "CA-US"
      (fun e he => absurd he (List.not_mem_nil e))).1 ⟨"US", by simp, rfl⟩).2

/-- Claim C5: a child with a parent is never authorised where the parent
is not, whatever rule sets either carries. -/
theorem hasPermission_child_le_parent (d p : Distributor) (region : String)
    (hpar : d.parent = some p) (h : d.HasPermission region = true) :
    p.HasPermission region = true := by
  match d with
  | .mk nm inc exc par =>
      simp only [Distributor.parent] at hpar
      subst hpar
      rw [hasPermission_def] at h
      split at h
      · exact absurd h (by simp)
      · split at h
        · exact h
        · exact absurd h (by simp)

/-- Claim C5 witness: child `B` of root `A` is authorised for `CA-US`, so
`A` is as well. -/
theorem hasPermission_child_le_parent_witness :
    (Distributor.mk "A" ["US"] [] none).HasPermission "CA-US" = true :=
  hasPermission_child_le_parent
    (.mk "B" ["US"] [] (some (.mk "A" ["US"] [] none))) (.mk "A" ["US"] [] none)
    "CA-US" rfl rfl

/-- Claim C9: the evaluation result is invariant under reordering of the
include set and of the exclude set. -/
theorem hasPermission_order_independent (nm : String) (inc₁ inc₂ exc₁ exc₂ : List String)
    (par : Option Distributor) (region : String)
    (hinc : inc₁.Perm inc₂) (hexc : exc₁.Perm exc₂) :
    (Distributor.mk nm inc₁ exc₁ par).HasPermission region =
      (Distributor.mk nm inc₂ exc₂ par).HasPermission region := by
  simp only [hasPermission_def]
  rw [perm_any _ hexc, perm_any _ hinc]

/-- Claim C9 witness: swapping two include rules does not change the
answer. -/
theorem hasPermission_order_independent_witness :
    (Distributor.mk "A" ["US", "FR"] ["NY-US"] none).HasPermission "CA-US" =
      (Distributor.mk "A" ["FR", "US"] ["NY-US"] none).HasPermission "CA-US" :=
  hasPermission_order_independent "A" ["US", "FR"] ["FR", "US"] ["NY-US"] ["NY-US"] none
    "CA-US" (List.Perm.swap "FR" "US" []) (List.Perm.refl _)

/-- Claim C10: evaluation is total and panic-free: splitting always
yields at least one segment, and on every distributor (parent chains are
acyclic by the inductive structure) and every region string, including
the empty string and strings of more than three segments, the panic-aware
evaluator completes with the reference answer. -/
theorem hasPermission_panic_free :
    (∀ s : String, 1 ≤ (splitDash s).length)
    ∧ ∀ (d : Distributor) (region : String),
        d.HasPermissionChecked region = some (d.HasPermission region) := by
  constructor
  · intro s
    have hne := splitDash_ne_nil s
    cases hs : splitDash s with
    | nil => exact absurd hs hne
    | cons a t => simp
  · exact hasPermissionChecked_eq_aux

/-- With a parent that denies the region, the node-level mutation is
rejected with the parent-denial error and the distributor is returned
unchanged, for either rule kind. -/
theorem addPermission_parent_denied_aux (d p : Distributor) (region : String) (b : Bool)
    (hpar : d.parent = some p) (hperm : p.HasPermission region = false) :
    d.AddPermission region b =
      (d, some ("parent distributor does not have permission for: " ++ region)) := by
  unfold Distributor.AddPermission
  rw [hpar]
  simp [hperm]

/-- Claim C1 counterexample: an exclude insertion IS subject to the
parent-authorization check: a child of a root that authorises nothing has
its exclude insertion for `FR` rejected with the parent-denial error, and
its exclude set stays empty. -/
theorem addPermission_exclude_gated_cex :
    (Distributor.mk "B" [] [] (some (Distributor.mk "A" [] [] none))).AddPermission "FR" false
      = (Distributor.mk "B" [] [] (some (Distributor.mk "A" [] [] none)),
         some "parent distributor does not have permission for: FR") := rfl

/-- Claim C1 (amended): the parent-authorization check gates both rule
kinds: when a distributor has a parent that does not authorise the
region, `AddPermission` is rejected with an error whether an include or
an exclude is being added. -/
theorem addPermission_gates_include_and_exclude (d p : Distributor) (region : String)
    (b : Bool) (hpar : d.parent = some p) (hperm : p.HasPermission region = false) :
    d.AddPermission region b =
      (d, some ("parent distributor does not have permission for: " ++ region)) :=
  addPermission_parent_denied_aux d p region b hpar hperm

/-- Claim C1 witness: the rejection at a concrete child and region. -/
theorem addPermission_gates_include_and_exclude_witness :
    (Distributor.mk "C" [] [] (some (Distributor.mk "R" [] [] none))).AddPermission "CA-US" true
      = (Distributor.mk "C" [] [] (some (Distributor.mk "R" [] [] none)),
         some ("parent distributor does not have permission for: " ++ "CA-US")) :=
  addPermission_gates_include_and_exclude _ _ "CA-US" true rfl rfl

/-- Claim C6: a parent-denied `AddPermission` through the system facade
returns an error and leaves the whole system state — every distributor's
include and exclude sets included — exactly as it was. -/
theorem sysAddPermission_rejected_atomic (ds : DistributionSystem) (nm region : String)
    (b : Bool) (d p : Distributor)
    (hd : ds.distributors.lookup nm = some d)
    (hpar : d.parent = some p) (hperm : p.HasPermission region = false) :
    (ds.AddPermission nm region b).1 = ds ∧ ((ds.AddPermission nm region b).2).isSome = true := by
  simp only [DistributionSystem.AddPermission]
  rw [hd]
  cases hv : ds.ValidateRegion region with
  | false => simp
  | true =>
      simp only [hv]
      rw [addPermission_parent_denied_aux d p region b hpar hperm]
      simp

/-- Claim C6 witness: child `B` of root `A`, which authorises nothing,
is denied an include for the known region `FR` and the system state is
untouched. -/
theorem sysAddPermission_rejected_atomic_witness :
    ((⟨[("A", Distributor.mk "A" [] [] none),
        ("B", Distributor.mk "B" [] [] (some (Distributor.mk "A" [] [] none)))],
       [("FR", ⟨"", "", "FR", "", "", "France"⟩)]⟩ :
        DistributionSystem).AddPermission "B" "FR" true).1
      = ⟨[("A", Distributor.mk "A" [] [] none),
          ("B", Distributor.mk "B" [] [] (some (Distributor.mk "A" [] [] none)))],
         [("FR", ⟨"", "", "FR", "", "", "France"⟩)]⟩
    ∧ ((⟨[("A", Distributor.mk "A" [] [] none),
          ("B", Distributor.mk "B" [] [] (some (Distributor.mk "A" [] [] none)))],
         [("FR", ⟨"", "", "FR", "", "", "France"⟩)]⟩ :
          DistributionSystem).AddPermission "B" "FR" true).2.isSome = true :=
  sysAddPermission_rejected_atomic _ "B" "FR" true
    (Distributor.mk "B" [] [] (some (Distributor.mk "A" [] [] none)))
    (Distributor.mk "A" [] [] none) rfl rfl rfl

/-- Claim C7: `AddDistributor` fails on a duplicate name; fails on a
named parent that does not exist; otherwise registers a node with empty
rule sets under the resolved parent (or none), leaving every previously
registered distributor unchanged. -/
theorem addDistributor_cases (ds : DistributionSystem) (nm parentName : String) :
    ((ds.distributors.lookup nm).isSome = true →
        ds.AddDistributor nm parentName =
          (ds, some ("distributor " ++ nm ++ " already exists")))
    ∧ (ds.distributors.lookup nm = none → parentName ≠ "" →
        ds.distributors.lookup parentName = none →
        ds.AddDistributor nm parentName =
          (ds, some ("parent distributor " ++ parentName ++ " does not exist")))
    ∧ (∀ p, ds.distributors.lookup nm = none → parentName ≠ "" →
        ds.distributors.lookup parentName = some p →
        ds.AddDistributor nm parentName =
          (⟨ds.distributors ++ [(nm, Distributor.mk nm [] [] (some p))], ds.locations⟩, none))
    ∧ (ds.distributors.lookup nm = none → parentName = "" →
        ds.AddDistributor nm parentName =
          (⟨ds.distributors ++ [(nm, Distributor.mk nm [] [] none)], ds.locations⟩, none))
    ∧ (∀ other, other ≠ nm →
        ((ds.AddDistributor nm parentName).1).distributors.lookup other
          = ds.distributors.lookup other) := by
  refine ⟨?_, ?_, ?_, ?_, ?_⟩
  · intro h
    simp [DistributionSystem.AddDistributor, h]
  · intro h hne hpn
    simp [DistributionSystem.AddDistributor, h, hne, hpn]
  · intro p h hne hp
    simp [DistributionSystem.AddDistributor, h, hne, hp]
  · intro h hpe
    simp [DistributionSystem.AddDistributor, h, hpe]
  · intro other hother
    unfold DistributionSystem.AddDistributor
    cases h1 : (ds.distributors.lookup nm).isSome with
    | true => simp [h1]
    | false =>
        rw [if_neg (by simp [h1])]
        by_cases h2 : parentName = ""
        · rw [if_neg (show ¬(parentName ≠ "") by simp [h2])]
          simp [lookup_append_single_ne _ _ _ _ hother]
        · rw [if_pos h2]
          cases hp : ds.distributors.lookup parentName with
          | none => rfl
          | some parent => simp [lookup_append_single_ne _ _ _ _ hother]

/-- Claim C7 witness: registering `A` at the root and then registering
`A` again fails with the duplicate-distributor error. -/
theorem addDistributor_cases_witness :
    (((⟨[], []⟩ : DistributionSystem).AddDistributor "A" "").1.AddDistributor "A" "")
      = ((((⟨[], []⟩ : DistributionSystem).AddDistributor "A" "").1),
         some ("distributor " ++ "A" ++ " already exists")) :=
  (addDistributor_cases (((⟨[], []⟩ : DistributionSystem).AddDistributor "A" "").1) "A" "").1 rfl

/-- Claim C8 counterexample: with an unknown distributor name and an
unknown region, `CheckPermission` reports the unknown-distributor error,
not the unknown-region error: the distributor check comes first. -/
theorem checkPermission_unknown_region_cex :
    (⟨[], []⟩ : DistributionSystem).ValidateRegion "XX" = false
    ∧ (⟨[], []⟩ : DistributionSystem).CheckPermission "A" "XX"
        = (false, some "distributor A does not exist")
    ∧ ("distributor A does not exist" : String) ≠ "invalid region code: XX" :=
  ⟨rfl, rfl, by decide⟩

/-- Claim C8 (amended): when the distributor name is registered and the
region is not a catalog key, `CheckPermission` returns the unknown-region
error; the result does not depend on any distributor's rule sets or
parents, so no `HasPermission` evaluation takes place. -/
theorem checkPermission_unknown_region (ds : DistributionSystem) (nm region : String)
    (hd : (ds.distributors.lookup nm).isSome = true)
    (hr : ds.ValidateRegion region = false) :
    ds.CheckPermission nm region = (false, some ("invalid region code: " ++ region)) := by
  obtain ⟨d, hd2⟩ := Option.isSome_iff_exists.mp hd
  simp [DistributionSystem.CheckPermission, hd2, hr]

/-- Claim C8 witness: the unknown-region error at a concrete state. -/
theorem checkPermission_unknown_region_witness :
    (⟨[("A", Distributor.mk "A" [] [] none)], []⟩ :
        DistributionSystem).CheckPermission "A" "XX"
      = (false, some ("invalid region code: " ++ "XX")) :=
  checkPermission_unknown_region _ "A" "XX" rfl rfl

end DistPerm
